import Mathlib

/-!
Verification of the UTXO runtime module (`src/runtime/src/utxo.rs`).

The module state is shallowly embedded: the `UtxoStore` map becomes an
association list from 256-bit keys to `TransactionOutput`s, the `RewardTotal`
storage value becomes a natural number kept below `2 ^ 128` by the checked
arithmetic, and the BLAKE2b-256 hasher is an abstract parameter
`hash : List Nat → Nat` (bytes in, 256-bit identifier out), so every statement
about derived keys is really a statement about the exact preimage bytes the
code feeds to the hasher.  SCALE encoding of the data types is modelled at the
byte level (little-endian fixed-width integers, raw hash bytes, compact length
prefixes), following `parity-scale-codec` as used by `Encode` derives and
`BlakeTwo256::hash_of`.  Rust panics (`unwrap`) are modelled as `Option.none`.
-/

/-- Little-endian byte encoding of `n` truncated to `w` bytes
(SCALE fixed-width integer encoding). -/
def bytesLE : Nat → Nat → List Nat
  | 0, _ => []
  | w + 1, n => n % 256 :: bytesLE w (n / 256)

/-- SCALE encoding of a `u64` (8 bytes, little-endian). -/
def encodeU64 (n : Nat) : List Nat := bytesLE 8 n

/-- SCALE encoding of a `u128` (16 bytes, little-endian). -/
def encodeU128 (n : Nat) : List Nat := bytesLE 16 n

/-- Raw 32 bytes of an `H256` identifier (modelled as a natural number). -/
def h256Bytes (n : Nat) : List Nat := bytesLE 32 n

/-- Raw 64 bytes of an `H512` signature (modelled as a natural number). -/
def h512Bytes (n : Nat) : List Nat := bytesLE 64 n

/-- Number of bytes needed to write `n` in base 256. -/
def byteLen (n : Nat) : Nat := if n = 0 then 0 else Nat.log 256 n + 1

/-- SCALE compact (general) integer encoding, used as the length prefix of
encoded sequences. -/
def encodeCompact (n : Nat) : List Nat :=
  if n < 64 then [n * 4]
  else if n < 2 ^ 14 then bytesLE 2 (n * 4 + 1)
  else if n < 2 ^ 30 then bytesLE 4 (n * 4 + 2)
  else ((byteLen n - 4) * 4 + 3) :: bytesLE (byteLen n) n

/-- `TransactionInput`: reference to a UTXO to be spent (`outpoint : H256`)
plus the authorizing signature (`sigscript : H512`). -/
structure TransactionInput where
  outpoint : Nat
  sigscript : Nat
deriving DecidableEq

/-- `TransactionOutput`: a spendable coin with a `value : u128` and the
owner's `pubkey : H256`. -/
structure TransactionOutput where
  value : Nat
  pubkey : Nat
deriving DecidableEq

/-- `Transaction`: ordered inputs and outputs. -/
structure Transaction where
  inputs : List TransactionInput
  outputs : List TransactionOutput
deriving DecidableEq

/-- SCALE encoding of a `TransactionInput` (derived `Encode`:
field encodings concatenated). -/
def encodeTransactionInput (i : TransactionInput) : List Nat :=
  h256Bytes i.outpoint ++ h512Bytes i.sigscript

/-- SCALE encoding of a `TransactionOutput` (derived `Encode`). -/
def encodeTransactionOutput (o : TransactionOutput) : List Nat :=
  encodeU128 o.value ++ h256Bytes o.pubkey

/-- SCALE encoding of a `Transaction` (derived `Encode`): each `Vec` field is
a compact length prefix followed by the element encodings. -/
def encodeTransaction (tx : Transaction) : List Nat :=
  encodeCompact tx.inputs.length ++ (tx.inputs.map encodeTransactionInput).flatten
    ++ encodeCompact tx.outputs.length ++ (tx.outputs.map encodeTransactionOutput).flatten

/-- SCALE encoding of a `Vec<u8>`: compact length prefix, then the raw bytes. -/
def encodeVecU8 (bs : List Nat) : List Nat := encodeCompact bs.length ++ bs

/-- The bytes hashed in `update_storage` for the output at position `index`:
`BlakeTwo256::hash_of(&(&transaction.encode(), index))` hashes the SCALE
encoding of the pair, i.e. the encoding of `transaction.encode()` as a
`Vec<u8>` (compact length prefix included) followed by the `u64` index. -/
def updateStorageKeyPreimage (tx : Transaction) (index : Nat) : List Nat :=
  encodeVecU8 (encodeTransaction tx) ++ encodeU64 index

/-- The bytes hashed in `disperse_reward` for a reward output:
`BlakeTwo256::hash_of(&(&utxo, block_number))` hashes the output encoding
(references encode as their referent, no extra prefix) followed by the
`u64` block number. -/
def rewardKeyPreimage (utxo : TransactionOutput) (blockNumber : Nat) : List Nat :=
  encodeTransactionOutput utxo ++ encodeU64 blockNumber

/-- The `UtxoStore` storage map, as an association list with unique keys. -/
abbrev UtxoMap := List (Nat × TransactionOutput)

/-- `UtxoStore::contains_key`. -/
def storeContains (st : UtxoMap) (k : Nat) : Bool :=
  st.any (fun p => p.1 == k)

/-- `UtxoStore::insert`: overwrite the entry at `k` when present, otherwise
append a new entry. -/
def storeInsert (st : UtxoMap) (k : Nat) (v : TransactionOutput) : UtxoMap :=
  if storeContains st k then st.map (fun p => if p.1 == k then (k, v) else p)
  else st ++ [(k, v)]

/-- `UtxoStore::remove`. -/
def storeRemove (st : UtxoMap) (k : Nat) : UtxoMap :=
  st.filter (fun p => !(p.1 == k))

/-- `UtxoStore::get`. -/
def storeGet (st : UtxoMap) (k : Nat) : Option TransactionOutput :=
  (st.find? (fun p => p.1 == k)).map (fun p => p.2)

/-- Sum of the values of all outputs in the store. -/
def totalValue (st : UtxoMap) : Nat := (st.map (fun p => p.2.value)).sum

/-- `u128::checked_add`. -/
def checkedAdd128 (a b : Nat) : Option Nat :=
  if a + b < 2 ^ 128 then some (a + b) else none

/-- `u128::checked_div`. -/
def checkedDiv (a b : Nat) : Option Nat :=
  if b = 0 then none else some (a / b)

/-- `u128::checked_sub`. -/
def checkedSub (a b : Nat) : Option Nat :=
  if b ≤ a then some (a - b) else none

/-- Unchecked `u128` multiplication (wrapping). -/
def u128mul (a b : Nat) : Nat := a * b % 2 ^ 128

/-- The module's state: the `UtxoStore` map and the `RewardTotal` value. -/
structure ModuleState where
  utxoStore : UtxoMap
  rewardTotal : Nat
deriving DecidableEq

/-- The module's event type: `decl_event!` declares only
`TransactionSuccess(Transaction)`. -/
inductive Event where
  | TransactionSuccess (tx : Transaction)
deriving DecidableEq

/-- One `sp_runtime::print` call: either a string literal or the raw bytes of
a key. -/
inductive RuntimeLog where
  | print (s : String)
  | printKey (k : Nat)
deriving DecidableEq

/-- The input-consumption loop of `update_storage`:
`for input in &transaction.inputs { <UtxoStore>::remove(input.outpoint); }`. -/
def removeInputs (st : UtxoMap) (inputs : List TransactionInput) : UtxoMap :=
  inputs.foldl (fun acc i => storeRemove acc i.outpoint) st

/-- The output-emission loop of `update_storage`: hash the transaction
encoding paired with the running `u64` index, bump the index with
`checked_add` (an overflow returns the error before the pending insert),
insert, continue. -/
def emitOutputs (hash : List Nat → Nat) (tx : Transaction) :
    UtxoMap → List TransactionOutput → Nat → UtxoMap × Option String
  | st, [], _ => (st, none)
  | st, output :: rest, index =>
    let h := hash (updateStorageKeyPreimage tx index)
    if index + 1 < 2 ^ 64 then
      emitOutputs hash tx (storeInsert st h output) rest (index + 1)
    else (st, some ("output index overflow"))

/-- `Module::update_storage`: credit the reward into `RewardTotal` with
`checked_add` (returning `Err("Reward overflow")` before any other state
touch), then remove every spent outpoint, then emit the new outputs. -/
def update_storage (hash : List Nat → Nat) (s : ModuleState) (transaction : Transaction)
    (reward : Nat) : ModuleState × Option String :=
  match checkedAdd128 s.rewardTotal reward with
  | none => (s, some ("Reward overflow"))
  | some newTotal =>
    let st1 := removeInputs s.utxoStore transaction.inputs
    let (st2, err) := emitOutputs hash transaction st1 transaction.outputs 0
    ({ utxoStore := st2, rewardTotal := newTotal }, err)

/-- Outcome of a dispatchable call: resulting state, deposited events, and
the `DispatchResult` error, if any. -/
structure DispatchOutcome where
  state : ModuleState
  events : List Event
  err : Option String
deriving DecidableEq

/-- `Module::spend`: no validation is performed (the source only carries a
comment where the check should be), the reward is the constant `0`, the
result of `update_storage` is discarded, a `TransactionSuccess` event is
deposited, and `Ok(())` is returned unconditionally. -/
def spend (hash : List Nat → Nat) (s : ModuleState) (transaction : Transaction) :
    DispatchOutcome :=
  let reward : Nat := 0
  let (s1, _r) := update_storage hash s transaction reward
  { state := s1, events := [Event.TransactionSuccess transaction], err := none }

/-- The body of the per-authority loop in `disperse_reward`: build the reward
output, derive its key, and insert it only when the key is absent; otherwise
drop it and print the collision message.  No event is deposited on either
branch. -/
def rewardAuthority (hash : List Nat → Nat) (blockNumber share : Nat) (st : UtxoMap)
    (authority : Nat) : UtxoMap × List RuntimeLog :=
  let utxo : TransactionOutput := { value := share, pubkey := authority }
  let h := hash (rewardKeyPreimage utxo blockNumber)
  if !(storeContains st h) then
    (storeInsert st h utxo,
      [RuntimeLog.print ("Transaction reward sent to"), RuntimeLog.printKey h])
  else
    (st, [RuntimeLog.print ("Transaction reward wasted due to hash colission")])

/-- The `for authority in authorities` loop of `disperse_reward`, threading
the store and accumulating the runtime prints. -/
def rewardLoop (hash : List Nat → Nat) (blockNumber share : Nat)
    (acc : UtxoMap × List RuntimeLog) (authorities : List Nat) : UtxoMap × List RuntimeLog :=
  authorities.foldl (fun acc a =>
    let (st1, l) := rewardAuthority hash blockNumber share acc.1 a
    (st1, acc.2 ++ l)) acc

/-- `Module::disperse_reward`: `take` the pool (leaving `0`), divide by the
authority count with `checked_div` (`unwrap` of the `Err` on an empty list is
a panic, modelled as `none`), return early when the share is zero, otherwise
store the remainder and run the per-authority loop.  The returned triple is
(state, runtime prints, deposited events). -/
def disperse_reward (hash : List Nat → Nat) (s : ModuleState) (authorities : List Nat)
    (blockNumber : Nat) : Option (ModuleState × List RuntimeLog × List Event) :=
  let reward := s.rewardTotal
  match checkedDiv reward authorities.length with
  | none => none
  | some sharedValue =>
    if sharedValue = 0 then some ({ s with rewardTotal := 0 }, [], [])
    else
      match checkedSub reward (u128mul sharedValue authorities.length) with
      | none => none
      | some remainder =>
        let (st, logs) := rewardLoop hash blockNumber sharedValue (s.utxoStore, []) authorities
        some ({ utxoStore := st, rewardTotal := remainder }, logs, [])

/-- `on_finalize`: collects the Aura authority keys and calls
`disperse_reward` on them. -/
def on_finalize (hash : List Nat → Nat) (s : ModuleState) (authorities : List Nat)
    (blockNumber : Nat) : Option (ModuleState × List RuntimeLog × List Event) :=
  disperse_reward hash s authorities blockNumber

/-- The key/output pair `disperse_reward` inserts for one authority when the
derived key is fresh. -/
def rewardEntry (hash : List Nat → Nat) (blockNumber share authority : Nat) :
    Nat × TransactionOutput :=
  (hash (rewardKeyPreimage { value := share, pubkey := authority } blockNumber),
    { value := share, pubkey := authority })

/-- Genesis key of a seeded output: `BlakeTwo256::hash_of(&u)`. -/
def genesisKey (hash : List Nat → Nat) (o : TransactionOutput) : Nat :=
  hash (encodeTransactionOutput o)

/-- A concrete stand-in hasher: the length of the preimage. -/
def hLen : List Nat → Nat := fun l => l.length

/-- A concrete stand-in hasher: big-endian fold of the preimage bytes,
injective on equal-length byte lists. -/
def hFold : List Nat → Nat := fun l => l.foldl (fun a b => a * 256 + b % 256) 0

/-- Empty module state. -/
def emptyState : ModuleState := { utxoStore := [], rewardTotal := 0 }

/-- A transaction whose single input references outpoint `7`, which resolves
nowhere in an empty store. -/
def txMissing : Transaction :=
  { inputs := [{ outpoint := 7, sigscript := 0 }],
    outputs := [{ value := 5, pubkey := 1 }] }

/-- A transaction with no inputs that mints an output of value `5`. -/
def txMint : Transaction :=
  { inputs := [], outputs := [{ value := 5, pubkey := 1 }] }

/-- Scenario S3 genesis output: value `10`, owner `100`. -/
def genOut : TransactionOutput := { value := 10, pubkey := 100 }

/-- State seeded with the S3 genesis output under its genesis key. -/
def sGenesis : ModuleState :=
  { utxoStore := [(genesisKey hLen genOut, genOut)], rewardTotal := 0 }

/-- Scenario S3 transaction: spend the genesis output of value `10` into an
output of value `7` (fee `3`). -/
def txSpendGen : Transaction :=
  { inputs := [{ outpoint := genesisKey hLen genOut, sigscript := 0 }],
    outputs := [{ value := 7, pubkey := 200 }] }

/-- A one-output transaction used to inspect derived output keys. -/
def txC7 : Transaction :=
  { inputs := [], outputs := [{ value := 1, pubkey := 2 }] }

/-- The key `disperse_reward` derives (under `hLen`) for a reward output of
value `4` to authority `5` at block `0`. -/
def kCol : Nat := hLen (rewardKeyPreimage { value := 4, pubkey := 5 } 0)

/-- A state whose store already occupies `kCol`, so the reward insertion for
authority `5` collides. -/
def sCol : ModuleState :=
  { utxoStore := [(kCol, { value := 9, pubkey := 9 })], rewardTotal := 4 }

/-- A state whose reward pool sits one below the `u128` maximum. -/
def sMax : ModuleState := { utxoStore := [], rewardTotal := 2 ^ 128 - 1 }

theorem storeContains_append (st1 st2 : UtxoMap) (k : Nat) :
    storeContains (st1 ++ st2) k = (storeContains st1 k || storeContains st2 k) := by
  simp [storeContains, List.any_append]

theorem storeInsert_of_not_contains (st : UtxoMap) (k : Nat) (v : TransactionOutput)
    (h : storeContains st k = false) : storeInsert st k v = st ++ [(k, v)] := by
  simp [storeInsert, h]

theorem storeContains_singleton (k1 k2 : Nat) (v : TransactionOutput) :
    storeContains [(k1, v)] k2 = (k1 == k2) := by
  simp [storeContains]

theorem emitOutputs_eq (hash : List Nat → Nat) (tx : Transaction) (outs : List TransactionOutput) :
    ∀ (st : UtxoMap) (index : Nat), index + outs.length < 2 ^ 64 →
      emitOutputs hash tx st outs index
        = ((List.enumFrom index outs).foldl
            (fun acc p => storeInsert acc (hash (updateStorageKeyPreimage tx p.1)) p.2) st,
           none) := by
  induction outs with
  | nil => intro st index _; simp [emitOutputs, List.enumFrom]
  | cons o rest ih =>
    intro st index h
    have h1 : index + 1 < 2 ^ 64 := by
      simp only [List.length_cons] at h; omega
    rw [emitOutputs, if_pos h1]
    have h2 : (index + 1) + rest.length < 2 ^ 64 := by
      simp only [List.length_cons] at h; omega
    rw [ih _ (index + 1) h2]
    simp [List.enumFrom]

theorem rewardLoop_fresh (hash : List Nat → Nat) (bn share : Nat) (auths : List Nat) :
    ∀ (st : UtxoMap) (logs : List RuntimeLog),
      (∀ a ∈ auths, storeContains st (rewardEntry hash bn share a).1 = false) →
      (auths.map (fun a => (rewardEntry hash bn share a).1)).Nodup →
      ∃ logs2, rewardLoop hash bn share (st, logs) auths
        = (st ++ auths.map (rewardEntry hash bn share), logs ++ logs2) := by
  induction auths with
  | nil => intro st logs _ _; exact ⟨[], by simp [rewardLoop]⟩
  | cons a rest ih =>
    intro st logs hfresh hnodup
    have hfa : storeContains st (rewardEntry hash bn share a).1 = false :=
      hfresh a (by simp)
    have hstep : rewardAuthority hash bn share st a
        = (st ++ [rewardEntry hash bn share a],
           [RuntimeLog.print ("Transaction reward sent to"),
            RuntimeLog.printKey (rewardEntry hash bn share a).1]) := by
      simp only [rewardAuthority, rewardEntry] at hfa ⊢
      rw [hfa]
      simp [storeInsert_of_not_contains _ _ _ hfa]
    rw [List.map_cons] at hnodup
    obtain ⟨hmem, hnd⟩ := List.nodup_cons.mp hnodup
    have hfresh2 : ∀ b ∈ rest,
        storeContains (st ++ [rewardEntry hash bn share a]) (rewardEntry hash bn share b).1
          = false := by
      intro b hb
      rw [storeContains_append, storeContains_singleton]
      have h1 : storeContains st (rewardEntry hash bn share b).1 = false :=
        hfresh b (by simp [hb])
      have h2 : (rewardEntry hash bn share a).1 ≠ (rewardEntry hash bn share b).1 := by
        intro hEq
        exact hmem (hEq ▸ List.mem_map_of_mem (fun x => (rewardEntry hash bn share x).1) hb)
      simp [h1, h2]
    obtain ⟨logs2, hrec⟩ := ih (st ++ [rewardEntry hash bn share a])
      (logs ++ [RuntimeLog.print ("Transaction reward sent to"),
                RuntimeLog.printKey (rewardEntry hash bn share a).1]) hfresh2 hnd
    refine ⟨[RuntimeLog.print ("Transaction reward sent to"),
             RuntimeLog.printKey (rewardEntry hash bn share a).1] ++ logs2, ?_⟩
    have hunfold : rewardLoop hash bn share (st, logs) (a :: rest)
        = rewardLoop hash bn share
            (st ++ [rewardEntry hash bn share a],
             logs ++ [RuntimeLog.print ("Transaction reward sent to"),
                      RuntimeLog.printKey (rewardEntry hash bn share a).1]) rest := by
      simp [rewardLoop, hstep]
    rw [hunfold, hrec]
    simp

theorem totalValue_rewardEntries (hash : List Nat → Nat) (bn share : Nat) (auths : List Nat) :
    totalValue (auths.map (rewardEntry hash bn share)) = share * auths.length := by
  induction auths with
  | nil => simp [totalValue]
  | cons a rest ih =>
    simp only [totalValue, List.map_cons, List.sum_cons] at ih ⊢
    simp only [rewardEntry, List.length_cons, Nat.mul_succ]
    omega

/-- Claim C1 (code behaviour at the failing input): `spend` performs no input
validation, so a transaction whose single input references an outpoint absent
from the empty store is not rejected with `MissingInput`; the dispatch
returns `Ok` and the UTXO store is mutated (the transaction's output is
inserted). -/
theorem C1_spend_accepts_missing_input :
    (spend hLen emptyState txMissing).err = none
      ∧ (spend hLen emptyState txMissing).state.utxoStore ≠ emptyState.utxoStore := by
  decide

/-- Claim C2 (code behaviour at the failing input): value is not conserved by
a successful `spend`.  Starting from the empty store and zero pool (total
value `0`), the input-less minting transaction `txMint` is accepted and
leaves total UTXO value plus reward pool equal to `5`, a delta of `5`, not
`0`. -/
theorem C2_conservation_violated :
    (spend hLen emptyState txMint).err = none
      ∧ totalValue emptyState.utxoStore + emptyState.rewardTotal = 0
      ∧ totalValue (spend hLen emptyState txMint).state.utxoStore
          + (spend hLen emptyState txMint).state.rewardTotal = 5 := by
  decide

/-- Claim C3 (code behaviour at the failing input): `spend` passes the
constant `reward = 0` to `update_storage`, so in scenario S3 (genesis output
of value `10` spent into an output of value `7`, fee `3`) the reward pool
stays `0` instead of becoming `3`. -/
theorem C3_fee_not_credited :
    (spend hLen sGenesis txSpendGen).err = none
      ∧ (spend hLen sGenesis txSpendGen).state.rewardTotal = 0
      ∧ ¬ (spend hLen sGenesis txSpendGen).state.rewardTotal = 3 := by
  decide

/-- Claim C4 counterexample: with pre-pool `2` and three authorities the
share is `0`, and the post-call pool is `0` — the drained pool is not
restored to `2` as the claim states. -/
theorem C4_counterexample :
    (on_finalize hLen { utxoStore := [], rewardTotal := 2 } [11, 12, 13] 0).map
        (fun r => r.1.rewardTotal) = some 0
      ∧ ¬ (on_finalize hLen { utxoStore := [], rewardTotal := 2 } [11, 12, 13] 0).map
        (fun r => r.1.rewardTotal) = some 2 := by
  decide

/-- Claim C4 as amended: for every `on_finalize` with a non-empty authority
list where the pre-call pool `p` satisfies `p / n = 0`, the call returns
with the reward pool equal to `0` (`RewardTotal::take` drains the pool and
the early return never writes it back, so the pool is discarded, not carried
forward) and the UTXO store is unchanged — no output is inserted. -/
theorem C4_share_zero_pool_discarded (hash : List Nat → Nat) (s : ModuleState)
    (auths : List Nat) (bn : Nat) (hne : auths ≠ [])
    (hz : s.rewardTotal / auths.length = 0) :
    on_finalize hash s auths bn = some ({ s with rewardTotal := 0 }, [], [])
      ∧ ({ s with rewardTotal := 0 } : ModuleState).utxoStore = s.utxoStore := by
  have hn : auths.length ≠ 0 := fun h => hne (List.length_eq_zero.mp h)
  exact ⟨by simp [on_finalize, disperse_reward, checkedDiv, hn, hz], rfl⟩

/-- Claim C4 amended, witnessed at the concrete scenario S4 shape: pool `2`,
three authorities. -/
theorem C4_share_zero_pool_discarded_witness :
    ([11, 12, 13] : List Nat) ≠ []
      ∧ ({ utxoStore := [], rewardTotal := 2 } : ModuleState).rewardTotal
          / ([11, 12, 13] : List Nat).length = 0
      ∧ on_finalize hLen { utxoStore := [], rewardTotal := 2 } [11, 12, 13] 0
          = some ({ utxoStore := [], rewardTotal := 0 }, [], []) := by
  have h := C4_share_zero_pool_discarded hLen { utxoStore := [], rewardTotal := 2 }
    [11, 12, 13] 0 (by decide) (by decide)
  exact ⟨by decide, by decide, h.1⟩

/-- Claim C5 (code behaviour at the failing input): with an empty authority
list, `disperse_reward` calls `checked_div` with divisor `0`, gets `None`,
and `unwrap`s the `Err` — a panic (modelled as `none`) — contradicting the
claim that `on_finalize` completes without panicking and leaves state
untouched. -/
theorem C5_empty_authorities_panics (hash : List Nat → Nat) (s : ModuleState) (bn : Nat) :
    on_finalize hash s [] bn = none := by
  simp [on_finalize, disperse_reward, checkedDiv]

/-- Claim C9: in `update_storage` the `checked_add` of the reward into the
pool is the first state access; when it overflows, the function returns
`Err("Reward overflow")` with the module state — in particular the UTXO
store — bitwise unchanged, with no mutation to roll back. -/
theorem C9_reward_overflow_leaves_store (hash : List Nat → Nat) (s : ModuleState)
    (tx : Transaction) (reward : Nat) (hov : 2 ^ 128 ≤ s.rewardTotal + reward) :
    update_storage hash s tx reward = (s, some ("Reward overflow")) := by
  have h : checkedAdd128 s.rewardTotal reward = none := by
    simp only [checkedAdd128, if_neg (Nat.not_lt.mpr hov)]
  simp [update_storage, h]

/-- Claim C9, witnessed at a pool one below the `u128` maximum and reward
`1`. -/
theorem C9_reward_overflow_leaves_store_witness :
    2 ^ 128 ≤ sMax.rewardTotal + 1
      ∧ update_storage hLen sMax txMint 1 = (sMax, some ("Reward overflow")) :=
  ⟨by decide, C9_reward_overflow_leaves_store hLen sMax txMint 1 (by decide)⟩

theorem disperse_reward_no_events (hash : List Nat → Nat) (s : ModuleState)
    (auths : List Nat) (bn : Nat) (r : ModuleState × List RuntimeLog × List Event)
    (h : disperse_reward hash s auths bn = some r) : r.2.2 = [] := by
  simp only [disperse_reward] at h
  rcases hdiv : checkedDiv s.rewardTotal auths.length with _ | sv
  · simp only [hdiv] at h
    exact Option.noConfusion h
  · simp only [hdiv] at h
    by_cases hsv : sv = 0
    · rw [if_pos hsv] at h
      simp only [Option.some.injEq] at h
      subst h
      rfl
    · rw [if_neg hsv] at h
      rcases hsub : checkedSub s.rewardTotal (u128mul sv auths.length) with _ | rem
      · simp only [hsub] at h
        exact Option.noConfusion h
      · simp only [hsub] at h
        rcases hloop : rewardLoop hash bn sv (s.utxoStore, []) auths with ⟨st2, logs2⟩
        rw [hloop] at h
        simp only [Option.some.injEq] at h
        subst h
        rfl

/-- Claim C6: with `n ≥ 1` authorities, pre-pool `p`, `p / n > 0`, and all
derived reward keys pairwise distinct and absent from the store, the
post-call pool is `p mod n`, one reward output of value `p / n` is appended
per authority, and the total value of the inserted reward outputs is
`(p / n) · n`. -/
theorem C6_reward_dispersal (hash : List Nat → Nat) (s : ModuleState) (auths : List Nat)
    (bn : Nat) (hne : auths ≠ []) (hp : s.rewardTotal < 2 ^ 128)
    (hshare : 0 < s.rewardTotal / auths.length)
    (hfresh : ∀ a ∈ auths,
      storeContains s.utxoStore (rewardEntry hash bn (s.rewardTotal / auths.length) a).1
        = false)
    (hnodup :
      (auths.map (fun a => (rewardEntry hash bn (s.rewardTotal / auths.length) a).1)).Nodup) :
    ∃ logs, on_finalize hash s auths bn
      = some ({ utxoStore :=
                  s.utxoStore ++ auths.map (rewardEntry hash bn (s.rewardTotal / auths.length)),
                rewardTotal := s.rewardTotal % auths.length }, logs, [])
      ∧ totalValue (auths.map (rewardEntry hash bn (s.rewardTotal / auths.length)))
          = (s.rewardTotal / auths.length) * auths.length := by
  have hn : auths.length ≠ 0 := fun h => hne (List.length_eq_zero.mp h)
  have hdiv : checkedDiv s.rewardTotal auths.length
      = some (s.rewardTotal / auths.length) := by
    simp [checkedDiv, hn]
  have hmul_le : (s.rewardTotal / auths.length) * auths.length ≤ s.rewardTotal :=
    Nat.div_mul_le_self _ _
  have hu : u128mul (s.rewardTotal / auths.length) auths.length
      = (s.rewardTotal / auths.length) * auths.length := by
    simp only [u128mul]
    exact Nat.mod_eq_of_lt (lt_of_le_of_lt hmul_le hp)
  have hdm := Nat.div_add_mod s.rewardTotal auths.length
  have hsub : checkedSub s.rewardTotal (u128mul (s.rewardTotal / auths.length) auths.length)
      = some (s.rewardTotal % auths.length) := by
    rw [hu]
    simp only [checkedSub, if_pos hmul_le, Option.some.injEq]
    have hc : (s.rewardTotal / auths.length) * auths.length
        = auths.length * (s.rewardTotal / auths.length) := Nat.mul_comm _ _
    omega
  obtain ⟨logs2, hloop⟩ := rewardLoop_fresh hash bn (s.rewardTotal / auths.length) auths
    s.utxoStore [] hfresh hnodup
  refine ⟨logs2, ?_, totalValue_rewardEntries hash bn _ auths⟩
  simp only [on_finalize, disperse_reward, hdiv]
  rw [if_neg (Nat.pos_iff_ne_zero.mp hshare)]
  simp only [hsub]
  rw [hloop]
  simp

/-- Claim C6, witnessed at pool `7`, authorities `[1, 2, 3]`, block `0`,
under the injective-on-these-bytes stand-in hasher `hFold`: share `2`,
remainder `1`, three reward outputs of value `2`. -/
theorem C6_reward_dispersal_witness :
    ([1, 2, 3] : List Nat) ≠ []
      ∧ ({ utxoStore := [], rewardTotal := 7 } : ModuleState).rewardTotal < 2 ^ 128
      ∧ 0 < ({ utxoStore := [], rewardTotal := 7 } : ModuleState).rewardTotal
          / ([1, 2, 3] : List Nat).length
      ∧ (([1, 2, 3] : List Nat).map (fun a => (rewardEntry hFold 0 (7 / 3) a).1)).Nodup
      ∧ ∃ logs, on_finalize hFold { utxoStore := [], rewardTotal := 7 } [1, 2, 3] 0
          = some ({ utxoStore :=
                      ([] : UtxoMap) ++ ([1, 2, 3] : List Nat).map (rewardEntry hFold 0 (7 / 3)),
                    rewardTotal := 7 % 3 }, logs, [])
          ∧ totalValue (([1, 2, 3] : List Nat).map (rewardEntry hFold 0 (7 / 3)))
              = 7 / 3 * 3 := by
  refine ⟨by decide, by decide, by decide, by decide, ?_⟩
  exact C6_reward_dispersal hFold { utxoStore := [], rewardTotal := 7 } [1, 2, 3] 0
    (by decide) (by decide) (by decide) (by decide) (by decide)

/-- Claim C7 counterexample: the key under which the single output of `txC7`
is stored hashes the SCALE encoding of the pair `(tx.encode(), 0u64)`, whose
bytes carry a compact length prefix in front of the transaction
serialization; they are not `serialize(tx) ‖ encode_u64_le(0)`, and under the
stand-in hasher `hLen` the stored key differs from the claimed one. -/
theorem C7_counterexample :
    (update_storage hLen emptyState txC7 0).1.utxoStore.map (fun p => p.1)
        = [hLen (updateStorageKeyPreimage txC7 0)]
      ∧ hLen (updateStorageKeyPreimage txC7 0) ≠ hLen (encodeTransaction txC7 ++ encodeU64 0)
      ∧ updateStorageKeyPreimage txC7 0 ≠ encodeTransaction txC7 ++ encodeU64 0 := by
  decide

/-- Claim C7 as amended: for every transaction applied without overflow, the
`i`-th output is inserted under the key
`H(compact_len(serialize(tx)) ‖ serialize(tx) ‖ encode_u64_le(i))`, i.e. the
hash of the SCALE encoding of the pair `(serialize(transaction), i)` — the
compact length prefix of the byte-vector wrapper is part of the preimage. -/
theorem C7_output_key_derivation (hash : List Nat → Nat) (s : ModuleState) (tx : Transaction)
    (reward : Nat) (hadd : s.rewardTotal + reward < 2 ^ 128)
    (hlen : tx.outputs.length < 2 ^ 64) :
    (update_storage hash s tx reward).1.utxoStore
      = (List.enumFrom 0 tx.outputs).foldl
          (fun acc p => storeInsert acc (hash (updateStorageKeyPreimage tx p.1)) p.2)
          (removeInputs s.utxoStore tx.inputs)
      ∧ ∀ i, updateStorageKeyPreimage tx i
          = encodeCompact (encodeTransaction tx).length ++ encodeTransaction tx
              ++ encodeU64 i := by
  constructor
  · have hca : checkedAdd128 s.rewardTotal reward = some (s.rewardTotal + reward) := by
      simp only [checkedAdd128, if_pos hadd]
    have hemit := emitOutputs_eq hash tx tx.outputs (removeInputs s.utxoStore tx.inputs) 0
      (by omega)
    simp [update_storage, hca, hemit]
  · intro i
    simp [updateStorageKeyPreimage, encodeVecU8, List.append_assoc]

/-- Claim C7 amended, witnessed on the one-output transaction `txC7`. -/
theorem C7_output_key_derivation_witness :
    emptyState.rewardTotal + 0 < 2 ^ 128
      ∧ txC7.outputs.length < 2 ^ 64
      ∧ (update_storage hLen emptyState txC7 0).1.utxoStore
          = (List.enumFrom 0 txC7.outputs).foldl
              (fun acc p => storeInsert acc (hLen (updateStorageKeyPreimage txC7 p.1)) p.2)
              (removeInputs emptyState.utxoStore txC7.inputs)
      ∧ updateStorageKeyPreimage txC7 3
          = encodeCompact (encodeTransaction txC7).length ++ encodeTransaction txC7
              ++ encodeU64 3 :=
  ⟨by decide, by decide,
    (C7_output_key_derivation hLen emptyState txC7 0 (by decide) (by decide)).1,
    (C7_output_key_derivation hLen emptyState txC7 0 (by decide) (by decide)).2 3⟩

/-- Claim C8 counterexample: at a state whose store already holds the derived
reward key `kCol`, dispersal leaves the stored output and the store
unchanged, prints the collision message, and deposits no event at all — in
particular no `RewardWasted` event, which the module's event type does not
even declare. -/
theorem C8_counterexample :
    disperse_reward hLen sCol [5] 0
      = some ({ utxoStore := sCol.utxoStore, rewardTotal := 0 },
          [RuntimeLog.print ("Transaction reward wasted due to hash colission")], []) := by
  decide

/-- Claim C8 as amended: when the derived key of a candidate reward output is
already present, the loop body leaves the store (hence the existing stored
output) unchanged, drops the candidate, and prints
`"Transaction reward wasted due to hash colission"`; no event is emitted —
`disperse_reward` deposits no events on any path, and the module's event
type has no `RewardWasted` constructor. -/
theorem C8_collision_forfeits_reward (hash : List Nat → Nat) (bn share : Nat) (st : UtxoMap)
    (a : Nat)
    (hcol : storeContains st (hash (rewardKeyPreimage { value := share, pubkey := a } bn))
      = true) :
    rewardAuthority hash bn share st a
        = (st, [RuntimeLog.print ("Transaction reward wasted due to hash colission")])
      ∧ ∀ (s : ModuleState) (auths : List Nat) (r : ModuleState × List RuntimeLog × List Event),
          disperse_reward hash s auths bn = some r → r.2.2 = [] := by
  refine ⟨?_, fun s auths r h => disperse_reward_no_events hash s auths bn r h⟩
  simp [rewardAuthority, hcol]

/-- Claim C8 amended, witnessed at the concrete colliding state `sCol`. -/
theorem C8_collision_forfeits_reward_witness :
    storeContains sCol.utxoStore (hLen (rewardKeyPreimage { value := 4, pubkey := 5 } 0))
        = true
      ∧ rewardAuthority hLen 0 4 sCol.utxoStore 5
          = (sCol.utxoStore,
             [RuntimeLog.print ("Transaction reward wasted due to hash colission")]) :=
  ⟨by decide, (C8_collision_forfeits_reward hLen 0 4 sCol.utxoStore 5 (by decide)).1⟩

/-- Claim C10: with a non-empty authority list and a nonzero share, the share
times the authority count never exceeds the drained pool (so the unchecked
`u128` multiplication does not wrap), the `checked_sub` computing the
remainder returns `some`, and the whole dispersal completes without the
`unwrap` panicking. -/
theorem C10_checked_sub_safe (hash : List Nat → Nat) (s : ModuleState) (auths : List Nat)
    (bn : Nat) (hne : auths ≠ []) (hp : s.rewardTotal < 2 ^ 128)
    (hshare : 0 < s.rewardTotal / auths.length) :
    (s.rewardTotal / auths.length) * auths.length ≤ s.rewardTotal
      ∧ checkedSub s.rewardTotal (u128mul (s.rewardTotal / auths.length) auths.length)
          = some (s.rewardTotal % auths.length)
      ∧ (on_finalize hash s auths bn).isSome = true := by
  have hn : auths.length ≠ 0 := fun h => hne (List.length_eq_zero.mp h)
  have hdiv : checkedDiv s.rewardTotal auths.length
      = some (s.rewardTotal / auths.length) := by
    simp [checkedDiv, hn]
  have hmul_le : (s.rewardTotal / auths.length) * auths.length ≤ s.rewardTotal :=
    Nat.div_mul_le_self _ _
  have hu : u128mul (s.rewardTotal / auths.length) auths.length
      = (s.rewardTotal / auths.length) * auths.length := by
    simp only [u128mul]
    exact Nat.mod_eq_of_lt (lt_of_le_of_lt hmul_le hp)
  have hdm := Nat.div_add_mod s.rewardTotal auths.length
  have hsub : checkedSub s.rewardTotal (u128mul (s.rewardTotal / auths.length) auths.length)
      = some (s.rewardTotal % auths.length) := by
    rw [hu]
    simp only [checkedSub, if_pos hmul_le, Option.some.injEq]
    have hc : (s.rewardTotal / auths.length) * auths.length
        = auths.length * (s.rewardTotal / auths.length) := Nat.mul_comm _ _
    omega
  refine ⟨hmul_le, hsub, ?_⟩
  simp only [on_finalize, disperse_reward, hdiv, hsub]
  rw [if_neg (Nat.pos_iff_ne_zero.mp hshare)]
  rcases hloop : rewardLoop hash bn (s.rewardTotal / auths.length) (s.utxoStore, []) auths
    with ⟨st2, logs2⟩
  simp [hloop]

/-- Claim C10, witnessed at pool `7` and authorities `[1, 2, 3]`. -/
theorem C10_checked_sub_safe_witness :
    ([1, 2, 3] : List Nat) ≠ []
      ∧ ({ utxoStore := [], rewardTotal := 7 } : ModuleState).rewardTotal < 2 ^ 128
      ∧ 0 < (7 : Nat) / 3
      ∧ (7 : Nat) / 3 * 3 ≤ 7
      ∧ checkedSub 7 (u128mul ((7 : Nat) / 3) 3) = some (7 % 3)
      ∧ (on_finalize hLen { utxoStore := [], rewardTotal := 7 } [1, 2, 3] 0).isSome = true := by
  have h := C10_checked_sub_safe hLen { utxoStore := [], rewardTotal := 7 } [1, 2, 3] 0
    (by decide) (by decide) (by decide)
  exact ⟨by decide, by decide, by decide, h.1, h.2.1, h.2.2⟩
